import Mathlib

/-!
Verification of the terraform-cloud-exporter collection pipeline.

The development shallowly embeds the program's core:
* `newHandler` (main.go): per-request context derivation from the
  `X-Prometheus-Scrape-Timeout-Seconds` header and construction of the
  per-request collector.
* `getWorkspacesListPage`, `Scrape` (internal/collector, workspaces scraper):
  paginated fetching of workspaces per organization, conversion of each
  workspace record to a metric sample, and the fan-out/fan-in coordination
  over organizations.

Modelling conventions:
* The upstream API client (`config.Client.Workspaces.List`) is an abstract
  function `api : Nat → Except String WorkspaceList` from page number to
  either an error or a page; the fixed `PageSize` and `Include` options of
  the call are not part of the abstraction because no page-number-independent
  behaviour depends on them.
* Go contexts and channels: cancellation observed by the `select` statement
  in `getWorkspacesListPage` is modelled by an oracle `done : Nat → Bool`
  over a per-task counter of channel-write attempts (`true` = the
  `<-ctx.Done()` branch wins the race at that attempt), and `cErr` stands
  for the `ctx.Err()` string.  The channel itself is modelled by the list of
  samples a task has written, in order.
* `errgroup` (golang.org/x/sync): modelled by its documented semantics —
  all tasks run to completion, `Wait` returns the first non-nil task error
  (temporal order abstracted as task-list order) or nil when all tasks
  return nil, and the derived group context is cancelled as soon as any
  task errors.
* The pagination loop in `Scrape` is not structurally terminating (it
  follows whatever `NextPage` the upstream returns), so it is embedded with
  explicit fuel; `none` means the fuel was exhausted before the loop ended.
-/

/- ### Data model (go-tfe types used by the scraper) -/

/-- tfe.Run, restricted to the fields the scraper reads: `ID`, `Status`
(read through `string(r.Status)`) and `CreatedAt` (read through
`r.CreatedAt.String()`, modelled as the rendered string). -/
structure Run where
  id : String
  status : String
  createdAt : String
deriving DecidableEq

/-- tfe.Workspace, restricted to the fields the scraper reads.
`organizationName` stands for `w.Organization.Name` and `createdAt` for
`w.CreatedAt.String()`. -/
structure Workspace where
  id : String
  name : String
  organizationName : String
  terraformVersion : String
  createdAt : String
  environment : String
  currentRun : Option Run
deriving DecidableEq

/-- tfe.Pagination: the scraper only reads `NextPage` (0 = no next page). -/
structure Pagination where
  nextPage : Nat
deriving DecidableEq

/-- tfe.WorkspaceList: `Items` and `Pagination`. -/
structure WorkspaceList where
  items : List Workspace
  pagination : Pagination
deriving DecidableEq

/-- A prometheus metric sample as built by `prometheus.MustNewConstMetric`
for the `WorkspacesInfo` descriptor: a gauge of constant value 1 with the
ordered label values. -/
structure MetricSample where
  value : ℚ
  labels : List String
deriving DecidableEq

/- ### Workspaces scraper (internal/collector/workspaces.go) -/

/-- The `workspacesSubsystem` constant, also `ScrapeWorkspaces.Name()`. -/
def workspacesSubsystem : String := "workspaces"

/-- The `pageSize` constant passed in `tfe.ListOptions`. -/
def pageSize : Nat := 40

/-- `getCurrentRunID`: "na" sentinel when the workspace has no current run. -/
def getCurrentRunID (r : Option Run) : String :=
  match r with
  | none => "na"
  | some r => r.id

/-- `getCurrentRunStatus`: "na" sentinel when the workspace has no current run. -/
def getCurrentRunStatus (r : Option Run) : String :=
  match r with
  | none => "na"
  | some r => r.status

/-- `getCurrentRunCreatedAt`: "na" sentinel when the workspace has no current run. -/
def getCurrentRunCreatedAt (r : Option Run) : String :=
  match r with
  | none => "na"
  | some r => r.createdAt

/-- The `prometheus.MustNewConstMetric(WorkspacesInfo, prometheus.GaugeValue, 1, ...)`
call in `getWorkspacesListPage`: label values in declared order. -/
def workspaceMetric (w : Workspace) : MetricSample :=
  { value := 1
    labels := [w.id, w.name, w.organizationName, w.terraformVersion, w.createdAt,
               w.environment, getCurrentRunID w.currentRun,
               getCurrentRunStatus w.currentRun, getCurrentRunCreatedAt w.currentRun] }

/-- The error-wrapping expression
`fmt.Errorf("%v, (organization=%s, page=%d)", err, organization, page)`. -/
def wrapPageError (err organization : String) (page : Nat) : String :=
  err ++ ", (organization=" ++ organization ++ ", page=" ++ toString page ++ ")"

/-- The `for _, w := range workspacesList.Items` loop of
`getWorkspacesListPage`: for each record, `select` between writing the
sample to the channel and observing `ctx.Done()`.  `done k = true` means the
cancellation branch wins the `select` at the k-th write attempt of this
task, in which case the loop returns `ctx.Err()` (`cErr`) without writing
that sample or visiting the remaining records.  Returns (samples written in
order, write-attempt counter afterwards, error if interrupted). -/
def sendItems (done : Nat → Bool) (cErr : String) :
    List Workspace → Nat → List MetricSample × Nat × Option String
  | [], k => ([], k, none)
  | w :: ws, k =>
    if done k then ([], k, some cErr)
    else
      match sendItems done cErr ws (k + 1) with
      | (sent, k', e) => (workspaceMetric w :: sent, k', e)

/-- The three ways `getWorkspacesListPage` returns, mirroring its three
`return` statements. -/
inductive PageOutcome where
  /-- `return workspacesList, fmt.Errorf(...)` — upstream list call failed
  (the returned list pointer is nil in this case). -/
  | fetchErr (e : String) : PageOutcome
  /-- `return workspacesList, ctx.Err()` — cancellation won a `select`;
  `sent` are the samples already written, `k` the counter afterwards. -/
  | interrupted (l : WorkspaceList) (sent : List MetricSample) (k : Nat) (e : String) : PageOutcome
  /-- `return workspacesList, nil` — every record of the page was written. -/
  | ok (l : WorkspaceList) (sent : List MetricSample) (k : Nat) : PageOutcome
deriving DecidableEq

/-- `getWorkspacesListPage(ctx, page, organization, config, ch)`:
one upstream list call for `page`, then the per-record emission loop.
`api` abstracts `config.Client.Workspaces.List` applied to the fixed
options (`pageSize`, include `current_run`); an error of the upstream call
(including one caused by `ctx`) is its `.error` case. -/
def getWorkspacesListPage (done : Nat → Bool) (cErr : String)
    (api : Nat → Except String WorkspaceList) (k page : Nat)
    (organization : String) : PageOutcome :=
  match api page with
  | .error err => .fetchErr (wrapPageError err organization page)
  | .ok workspacesList =>
    match sendItems done cErr workspacesList.items k with
    | (sent, k', some e) => .interrupted workspacesList sent k' e
    | (sent, k', none) => .ok workspacesList sent k'

/-- Result of one organization's fetch task (the `g.Go` closure):
the page numbers requested in order, the samples written to the channel in
order, and the task's returned error (`none` = returned nil). -/
structure OrgResult where
  pages : List Nat
  sent : List MetricSample
  err : Option String
deriving DecidableEq

/-- The page loop of the `g.Go` closure in `Scrape`:
request `page`; on error return it; otherwise follow
`list.Pagination.NextPage` until it is 0.  `fuel` bounds the number of
iterations (the Go loop has no such bound); `none` = fuel exhausted. -/
def orgLoop (done : Nat → Bool) (cErr : String)
    (api : Nat → Except String WorkspaceList) (org : String) :
    Nat → Nat → Nat → Option OrgResult
  | 0, _, _ => none
  | fuel + 1, k, page =>
    match getWorkspacesListPage done cErr api k page org with
    | .fetchErr e => some ⟨[page], [], some e⟩
    | .interrupted _ sent _ e => some ⟨[page], sent, some e⟩
    | .ok l sent k' =>
      if l.pagination.nextPage = 0 then some ⟨[page], sent, none⟩
      else
        (orgLoop done cErr api org fuel k' l.pagination.nextPage).map
          (fun r => ⟨page :: r.pages, sent ++ r.sent, r.err⟩)

/-- One organization's fetch task: the `g.Go` closure starts at page 1
(`getWorkspacesListPage(ctx, 1, name, config, ch)`) with a fresh
write-attempt counter. -/
def scrapeOrg (done : Nat → Bool) (cErr : String)
    (api : Nat → Except String WorkspaceList) (org : String) (fuel : Nat) :
    Option OrgResult :=
  orgLoop done cErr api org fuel 0 1

/-- `errgroup.Group.Wait()` as documented: the first non-nil error returned
by the tasks, or nil when every task returned nil (temporal "first"
abstracted as task-list order). -/
def gWait (errs : List (Option String)) : Option String :=
  errs.findSome? id

/-- Whether the context derived by `errgroup.WithContext` gets cancelled:
it is cancelled exactly when some task returns a non-nil error. -/
def groupCancelled (errs : List (Option String)) : Bool :=
  errs.any Option.isSome

/-- `ScrapeWorkspaces.Scrape`: fan out one task per configured organization
over the shared channel and group context, then `return g.Wait()`.
`dones` gives each organization's task its cancellation oracle and `api`
its view of the upstream client.  Result: the per-task outcomes paired with
the value of `g.Wait()`; `none` = some task's fuel ran out. -/
def Scrape (dones : String → Nat → Bool) (cErr : String)
    (api : String → Nat → Except String WorkspaceList)
    (organizations : List String) (fuel : Nat) :
    Option (List (String × OrgResult) × Option String) :=
  (organizations.mapM (fun name =>
      (scrapeOrg (dones name) cErr (api name) name fuel).map (fun r => (name, r)))).map
    (fun tasks => (tasks, gWait (tasks.map (fun t => t.2.err))))

/- ### Exposition handler (main.go, newHandler) -/

/-- The contexts a request handler can hold: the request's own
connection-scoped context (`r.Context()`), or a timeout sub-context derived
from a parent (`context.WithTimeout(parent, seconds)`; the deadline is kept
as the parsed seconds value). -/
inductive Ctx where
  | request : Ctx
  | withTimeout (parent : Ctx) (seconds : ℚ) : Ctx
deriving DecidableEq

/-- What one invocation of the handler closure in `newHandler` does before
delegating to promhttp: which context is captured by `collector.New`, which
context the (possibly rewritten) request `r` carries into `h.ServeHTTP`,
and whether the header-parse failure was logged. -/
structure HandlerOutcome where
  collectorCtx : Ctx
  serveCtx : Ctx
  loggedParseError : Bool
deriving DecidableEq

/-- The handler closure returned by `newHandler`, up to the
`collector.New(ctx, config, metrics)` / `h.ServeHTTP(w, r)` calls.
`headerValue` is `r.Header.Get("X-Prometheus-Scrape-Timeout-Seconds")`
("" when absent) and `parseFloat` abstracts `strconv.ParseFloat(v, 64)`
(`none` = parse error).

Note the Go source's inner statement
`ctx, cancel := context.WithTimeout(ctx, ...)` declares a *new* `ctx`
scoped to the `else` block (it shadows the outer `ctx`); only
`r = r.WithContext(ctx)` sees the timeout context, while the later
`collector.New(ctx, ...)` still sees the outer, connection-scoped context.
The embedding reproduces that scoping with the inner `let ctxTimeout`. -/
def newHandler (headerValue : String) (parseFloat : String → Option ℚ) :
    HandlerOutcome :=
  let ctx := Ctx.request
  if headerValue ≠ "" then
    match parseFloat headerValue with
    | none =>
      { collectorCtx := ctx, serveCtx := ctx, loggedParseError := true }
    | some timeoutSeconds =>
      let ctxTimeout := Ctx.withTimeout ctx timeoutSeconds
      { collectorCtx := ctx, serveCtx := ctxTimeout, loggedParseError := false }
  else
    { collectorCtx := ctx, serveCtx := ctx, loggedParseError := false }

/- ### Substring machinery (for stating what an error message mentions) -/

/-- `leadsWith pat l`: the character list `l` starts with `pat`. -/
def leadsWith : List Char → List Char → Bool
  | [], _ => true
  | _ :: _, [] => false
  | p :: ps, c :: cs => p == c && leadsWith ps cs

/-- `hasSub l pat`: `pat` occurs contiguously somewhere in `l`. -/
def hasSub : List Char → List Char → Bool
  | [], pat => leadsWith pat []
  | c :: t, pat => leadsWith pat (c :: t) || hasSub t pat

theorem leadsWith_append_self (p r : List Char) : leadsWith p (p ++ r) = true := by
  induction p with
  | nil => rfl
  | cons c cs ih => simp [leadsWith, ih]

theorem hasSub_of_leadsWith (l pat : List Char) (h : leadsWith pat l = true) :
    hasSub l pat = true := by
  cases l with
  | nil => simpa [hasSub] using h
  | cons c t => simp [hasSub, h]

theorem hasSub_append_left (pre t pat : List Char) (h : hasSub t pat = true) :
    hasSub (pre ++ t) pat = true := by
  induction pre with
  | nil => simpa using h
  | cons c cs ih => simp [hasSub]; exact Or.inr ih

theorem hasSub_middle (pre mid suf : List Char) : hasSub (pre ++ (mid ++ suf)) mid = true :=
  hasSub_append_left _ _ _ (hasSub_of_leadsWith _ _ (leadsWith_append_self _ _))

/- ### Claims about the exposition handler -/

/-- Claim C1 (code bug): with a well-formed timeout header ("10", parsing
as 10 seconds), the handler builds the timeout context but — because the
inner `ctx, cancel := context.WithTimeout(ctx, ...)` shadows the outer
`ctx` — `collector.New` captures the unbounded request context, not the
derived deadline-bounded sub-context the claim describes; only the request
handed to promhttp carries the timeout context. -/
theorem C1_shadowed_timeout_ctx :
    (newHandler "10" (fun v => if v = "10" then some 10 else none)).collectorCtx
      = Ctx.request ∧
    (newHandler "10" (fun v => if v = "10" then some 10 else none)).serveCtx
      = Ctx.withTimeout Ctx.request 10 := by
  constructor <;> rfl

/-- Claim C9: a timeout header value that fails to parse does not fail the
request: the parse error is logged, no deadline is applied, and both the
collector and the served request keep the connection-scoped request
context. -/
theorem C9_malformed_timeout_header_logged_only (v : String)
    (parseFloat : String → Option ℚ) (hv : v ≠ "") (hp : parseFloat v = none) :
    newHandler v parseFloat =
      { collectorCtx := Ctx.request, serveCtx := Ctx.request, loggedParseError := true } := by
  simp [newHandler, hv, hp]

theorem C9_witness :
    newHandler "abc" (fun _ => none) =
      { collectorCtx := Ctx.request, serveCtx := Ctx.request, loggedParseError := true } :=
  C9_malformed_timeout_header_logged_only "abc" (fun _ => none) (by decide) rfl

/- ### Claims about the error wrap (C2) -/

/-- Claim C2, counterexample: when the upstream list call for page 2 of
organization "acme" fails with "boom", `getWorkspacesListPage` returns the
wrapped error "boom, (organization=acme, page=2)", and the scraper name
(`workspacesSubsystem` = `ScrapeWorkspaces.Name()` = "workspaces") does not
occur anywhere in it — the wrap carries only the organization and the page,
refuting the claim that all three contextual details are included. -/
theorem C2_counterexample_scraper_name_missing :
    getWorkspacesListPage (fun _ => false) "context canceled"
        (fun _ => .error "boom") 0 2 "acme"
      = .fetchErr (wrapPageError "boom" "acme" 2) ∧
    hasSub (wrapPageError "boom" "acme" 2).data workspacesSubsystem.data = false := by
  constructor
  · rfl
  · decide

/-- Claim C2 (amended): on a page-fetch failure the error returned by
`getWorkspacesListPage` wraps the upstream error together with the
organization name and the page number (the scraper name is not included). -/
theorem C2_error_wraps_org_and_page (err organization : String) (page : Nat) :
    hasSub (wrapPageError err organization page).data err.data = true ∧
    hasSub (wrapPageError err organization page).data organization.data = true ∧
    hasSub (wrapPageError err organization page).data (toString page).data = true := by
  refine ⟨?_, ?_, ?_⟩
  · have h := hasSub_middle [] err.data
      (", (organization=".data ++ organization.data ++ ", page=".data
        ++ (toString page).data ++ ")".data)
    simpa [wrapPageError, String.data_append, List.append_assoc] using h
  · have h := hasSub_middle (err.data ++ ", (organization=".data) organization.data
      (", page=".data ++ (toString page).data ++ ")".data)
    simpa [wrapPageError, String.data_append, List.append_assoc] using h
  · have h := hasSub_middle
      (err.data ++ ", (organization=".data ++ organization.data ++ ", page=".data)
      (toString page).data (")".data)
    simpa [wrapPageError, String.data_append, List.append_assoc] using h

/- ### Claims about the metric labels (C4) -/

/-- Claim C4: a workspace whose current-run reference is absent yields a
sample whose `current_run`, `current_run_status` and `current_run_created_at`
labels (positions 7-9 of the declared label order) are all the sentinel
"na"; when the reference is present they are the run's id, status and
creation timestamp. -/
theorem C4_current_run_sentinel (w : Workspace) :
    (w.currentRun = none →
      (workspaceMetric w).labels
        = [w.id, w.name, w.organizationName, w.terraformVersion, w.createdAt,
           w.environment, "na", "na", "na"]) ∧
    (∀ r, w.currentRun = some r →
      (workspaceMetric w).labels
        = [w.id, w.name, w.organizationName, w.terraformVersion, w.createdAt,
           w.environment, r.id, r.status, r.createdAt]) := by
  constructor
  · intro h
    simp [workspaceMetric, getCurrentRunID, getCurrentRunStatus, getCurrentRunCreatedAt, h]
  · intro r h
    simp [workspaceMetric, getCurrentRunID, getCurrentRunStatus, getCurrentRunCreatedAt, h]

/-- A workspace record with no current run (for witnesses). -/
def wNoRun : Workspace := ⟨"ws-1", "app", "acme", "1.0.0", "2021-01-01", "default", none⟩

/-- A workspace record with a current run (for witnesses). -/
def wWithRun : Workspace :=
  ⟨"ws-2", "db", "acme", "0.14.0", "2021-02-01", "default",
   some ⟨"run-1", "applied", "2021-03-01"⟩⟩

theorem C4_witness :
    (workspaceMetric wNoRun).labels
      = ["ws-1", "app", "acme", "1.0.0", "2021-01-01", "default", "na", "na", "na"] ∧
    (workspaceMetric wWithRun).labels
      = ["ws-2", "db", "acme", "0.14.0", "2021-02-01", "default",
         "run-1", "applied", "2021-03-01"] :=
  ⟨(C4_current_run_sentinel wNoRun).1 rfl,
   (C4_current_run_sentinel wWithRun).2 ⟨"run-1", "applied", "2021-03-01"⟩ rfl⟩

/- ### Claim about the empty-organizations case (C10) -/

/-- Claim C10: with an empty Organizations list, `Scrape` spawns no tasks,
emits no metric samples, and `g.Wait()` returns nil. -/
theorem C10_empty_organizations_noop (dones : String → Nat → Bool) (cErr : String)
    (api : String → Nat → Except String WorkspaceList) (fuel : Nat) :
    Scrape dones cErr api [] fuel = some ([], none) := rfl

/- ### Helper lemmas about sendItems and getWorkspacesListPage -/

/-- With no cancellation, the emission loop writes one sample per record,
in record order. -/
theorem sendItems_noCancel (cErr : String) (items : List Workspace) :
    ∀ k, sendItems (fun _ => false) cErr items k
      = (items.map workspaceMetric, k + items.length, none) := by
  induction items with
  | nil => intro k; simp [sendItems]
  | cons w ws ih =>
    intro k
    have hn : k + 1 + ws.length = k + (ws.length + 1) := by omega
    simp [sendItems, ih (k + 1), hn]

/-- A successful page outcome comes from a successful upstream call on that
very page. -/
theorem getPage_ok_api (done : Nat → Bool) (cErr : String)
    (api : Nat → Except String WorkspaceList) (k page : Nat) (org : String)
    (l : WorkspaceList) (sent : List MetricSample) (k' : Nat)
    (h : getWorkspacesListPage done cErr api k page org = .ok l sent k') :
    api page = Except.ok l := by
  unfold getWorkspacesListPage at h
  split at h
  · simp at h
  · rename_i wl hwl
    split at h
    · simp at h
    · rename_i heq
      obtain ⟨rfl, -, -⟩ := PageOutcome.ok.inj h
      exact hwl

/- ### Helper lemmas about the per-organization page loop -/

/-- Last requested page of a trace (0 for the empty trace, which never
occurs for a finished loop). -/
def lastPage : List Nat → Nat
  | [] => 0
  | [p] => p
  | _ :: q :: rest => lastPage (q :: rest)

/-- The records the upstream holds on a given page (empty when the list
call for that page fails). -/
def pageItems (api : Nat → Except String WorkspaceList) (page : Nat) : List Workspace :=
  match api page with
  | .ok l => l.items
  | .error _ => []

/-- With no cancellation, a page fetch either fails upstream or writes the
whole page. -/
theorem getPage_noCancel (cErr : String) (api : Nat → Except String WorkspaceList)
    (k page : Nat) (org : String) :
    getWorkspacesListPage (fun _ => false) cErr api k page org
      = match api page with
        | .error err => .fetchErr (wrapPageError err org page)
        | .ok l => .ok l (l.items.map workspaceMetric) (k + l.items.length) := by
  unfold getWorkspacesListPage
  split
  · rfl
  · rw [sendItems_noCancel]

/-- The emission loop aborted by cancellation at the j-th record: the first
j samples are written, then the loop returns `ctx.Err()` without writing
sample j or visiting the rest. -/
theorem sendItems_cancelAt (done : Nat → Bool) (cErr : String) :
    ∀ (items : List Workspace) (k j : Nat), j < items.length →
      (∀ i, i < j → done (k + i) = false) → done (k + j) = true →
      sendItems done cErr items k
        = ((items.take j).map workspaceMetric, k + j, some cErr) := by
  intro items
  induction items with
  | nil => intro k j hj hb hd; simp at hj
  | cons w ws ih =>
    intro k j hj hb hd
    cases j with
    | zero =>
      have h0 : done k = true := by simpa using hd
      simp [sendItems, h0]
    | succ j' =>
      have h0 : done k = false := by simpa using hb 0 (Nat.succ_pos j')
      have hb' : ∀ i, i < j' → done (k + 1 + i) = false := by
        intro i hi
        have harg : k + 1 + i = k + (i + 1) := by omega
        rw [harg]
        exact hb (i + 1) (by omega)
      have hd' : done (k + 1 + j') = true := by
        have harg : k + 1 + j' = k + (j' + 1) := by omega
        rw [harg]; exact hd
      have hjl : j' < ws.length := by simpa using hj
      have harr : k + 1 + j' = k + (j' + 1) := by omega
      simp [sendItems, h0, ih (k + 1) j' hjl hb' hd', List.take_succ_cons, harr]

/-- The first page a loop run requests is its start page. -/
theorem orgLoop_head (done : Nat → Bool) (cErr : String)
    (api : Nat → Except String WorkspaceList) (org : String) :
    ∀ (fuel k page : Nat) (r : OrgResult),
      orgLoop done cErr api org fuel k page = some r → r.pages.head? = some page := by
  intro fuel
  induction fuel with
  | zero => intro k page r h; simp [orgLoop] at h
  | succ n ih =>
    intro k page r h
    simp only [orgLoop] at h
    split at h
    · obtain rfl := Option.some.inj h; rfl
    · obtain rfl := Option.some.inj h; rfl
    · split at h
      · obtain rfl := Option.some.inj h; rfl
      · rcases Option.map_eq_some'.mp h with ⟨r', hr', rfl⟩
        rfl

/-- Consecutive requested pages are linked by the upstream's nonzero
next-page field. -/
theorem orgLoop_chain (done : Nat → Bool) (cErr : String)
    (api : Nat → Except String WorkspaceList) (org : String) :
    ∀ (fuel k page : Nat) (r : OrgResult),
      orgLoop done cErr api org fuel k page = some r →
      List.Chain' (fun a b => ∃ l, api a = Except.ok l ∧ l.pagination.nextPage = b ∧ b ≠ 0)
        r.pages := by
  intro fuel
  induction fuel with
  | zero => intro k page r h; simp [orgLoop] at h
  | succ n ih =>
    intro k page r h
    simp only [orgLoop] at h
    split at h
    · obtain rfl := Option.some.inj h; simp
    · obtain rfl := Option.some.inj h; simp
    · rename_i l sent k' heq
      split at h
      · obtain rfl := Option.some.inj h; simp
      · rename_i hz
        rcases Option.map_eq_some'.mp h with ⟨r', hr', rfl⟩
        rw [List.chain'_cons']
        constructor
        · intro y hy
          have hh := orgLoop_head done cErr api org n k' l.pagination.nextPage r' hr'
          rw [hh] at hy
          simp only [Option.mem_def, Option.some.injEq] at hy
          subst hy
          exact ⟨l, getPage_ok_api done cErr api k page org l sent k' heq, rfl, hz⟩
        · exact ih k' l.pagination.nextPage r' hr'

/-- A loop run that returns nil ended on a page whose next-page field was
zero. -/
theorem orgLoop_last (done : Nat → Bool) (cErr : String)
    (api : Nat → Except String WorkspaceList) (org : String) :
    ∀ (fuel k page : Nat) (r : OrgResult),
      orgLoop done cErr api org fuel k page = some r → r.err = none →
      ∃ l, api (lastPage r.pages) = Except.ok l ∧ l.pagination.nextPage = 0 := by
  intro fuel
  induction fuel with
  | zero => intro k page r h; simp [orgLoop] at h
  | succ n ih =>
    intro k page r h herr
    simp only [orgLoop] at h
    split at h
    · obtain rfl := Option.some.inj h; simp at herr
    · obtain rfl := Option.some.inj h; simp at herr
    · rename_i l sent k' heq
      split at h
      · rename_i hz
        obtain rfl := Option.some.inj h
        exact ⟨l, getPage_ok_api done cErr api k page org l sent k' heq, hz⟩
      · rcases Option.map_eq_some'.mp h with ⟨r', hr', rfl⟩
        have hh := orgLoop_head done cErr api org n k' l.pagination.nextPage r' hr'
        have hr'err : r'.err = none := herr
        rcases hcons : r'.pages with _ | ⟨a, t⟩
        · rw [hcons] at hh; simp at hh
        · have := ih k' l.pagination.nextPage r' hr' hr'err
          rw [hcons] at this
          simpa [lastPage, hcons] using this

/-- With no cancellation, the samples a loop run writes are exactly the
records of the visited pages, in page order and record order. -/
theorem orgLoop_sent (cErr : String) (api : Nat → Except String WorkspaceList)
    (org : String) :
    ∀ (fuel k page : Nat) (r : OrgResult),
      orgLoop (fun _ => false) cErr api org fuel k page = some r →
      r.sent = (r.pages.flatMap (pageItems api)).map workspaceMetric := by
  intro fuel
  induction fuel with
  | zero => intro k page r h; simp [orgLoop] at h
  | succ n ih =>
    intro k page r h
    rw [orgLoop, getPage_noCancel] at h
    cases hA : api page with
    | error e =>
      rw [hA] at h
      dsimp at h
      obtain rfl := Option.some.inj h
      simp [pageItems, hA]
    | ok l =>
      rw [hA] at h
      dsimp at h
      split at h
      · obtain rfl := Option.some.inj h
        simp [pageItems, hA]
      · rcases Option.map_eq_some'.mp h with ⟨r', hr', rfl⟩
        have := ih (k + l.items.length) l.pagination.nextPage r' hr'
        simp [pageItems, hA, List.flatMap_cons, List.map_append, this]

/-- Fuel bound: when every successful page's next-page field is zero or
strictly larger than the requested page and bounded by B, the loop finishes
within the fuel budget. -/
theorem orgLoop_isSome (done : Nat → Bool) (cErr : String)
    (api : Nat → Except String WorkspaceList) (org : String) (B : Nat)
    (H : ∀ p l, api p = Except.ok l →
      l.pagination.nextPage = 0 ∨ (p < l.pagination.nextPage ∧ l.pagination.nextPage ≤ B)) :
    ∀ (n k page : Nat), B + 1 - page < n →
      (orgLoop done cErr api org n k page).isSome = true := by
  intro n
  induction n with
  | zero => intro k page h; exact absurd h (by omega)
  | succ n ih =>
    intro k page h
    simp only [orgLoop]
    split
    · rfl
    · rfl
    · rename_i l sent k' heq
      split
      · rfl
      · rename_i hz
        have hapi := getPage_ok_api done cErr api k page org l sent k' heq
        have hnext : B + 1 - l.pagination.nextPage < n := by
          rcases H page l hapi with h0 | ⟨hlt, hle⟩
          · exact absurd h0 hz
          · omega
        have hs := ih k' l.pagination.nextPage hnext
        rcases ho : orgLoop done cErr api org n k' l.pagination.nextPage with _ | r'
        · rw [ho] at hs; simp at hs
        · simp [ho]

/- ### Claims about pagination (C5, C7, C8) and cancellation (C6) -/

/-- Claim C5: an organization's fetch requests page 1 first; after a
successful page, a zero next-page field ends the loop with a nil error,
and any nonzero next-page value is exactly the page requested next
(consecutive requested pages are linked by the upstream's nonzero
next-page field). -/
theorem C5_pagination_chain (done : Nat → Bool) (cErr : String)
    (api : Nat → Except String WorkspaceList) (org : String) (fuel : Nat)
    (r : OrgResult) (h : scrapeOrg done cErr api org fuel = some r) :
    r.pages.head? = some 1 ∧
    List.Chain' (fun a b => ∃ l, api a = Except.ok l ∧ l.pagination.nextPage = b ∧ b ≠ 0)
      r.pages ∧
    (r.err = none → ∃ l, api (lastPage r.pages) = Except.ok l ∧ l.pagination.nextPage = 0) :=
  ⟨orgLoop_head done cErr api org fuel 0 1 r h,
   orgLoop_chain done cErr api org fuel 0 1 r h,
   orgLoop_last done cErr api org fuel 0 1 r h⟩

/-- Two-page upstream for the C5 witness: page 1 points at page 2, page 2
is the last page. -/
def c5Api : Nat → Except String WorkspaceList := fun p =>
  if p = 1 then .ok ⟨[wNoRun], ⟨2⟩⟩ else .ok ⟨[wWithRun], ⟨0⟩⟩

/-- Outcome of the C5 witness run. -/
def c5Result : OrgResult :=
  ⟨[1, 2], [workspaceMetric wNoRun, workspaceMetric wWithRun], none⟩

theorem C5_witness :
    c5Result.pages.head? = some 1 ∧
    List.Chain' (fun a b => ∃ l, c5Api a = Except.ok l ∧ l.pagination.nextPage = b ∧ b ≠ 0)
      c5Result.pages ∧
    (c5Result.err = none →
      ∃ l, c5Api (lastPage c5Result.pages) = Except.ok l ∧ l.pagination.nextPage = 0) :=
  C5_pagination_chain (fun _ => false) "context canceled" c5Api "acme" 2 c5Result (by decide)

/-- Claim C6: if cancellation wins the race before the j-th sample of a
page can be written, `getWorkspacesListPage` returns the context's
cancellation error at once: the first j samples were written, sample j was
not, and the remaining records of the page are not visited. -/
theorem C6_cancel_aborts_page (done : Nat → Bool) (cErr : String)
    (api : Nat → Except String WorkspaceList) (k page : Nat) (org : String)
    (l : WorkspaceList) (j : Nat)
    (hapi : api page = Except.ok l) (hj : j < l.items.length)
    (hbefore : ∀ i, i < j → done (k + i) = false) (hdone : done (k + j) = true) :
    getWorkspacesListPage done cErr api k page org
      = .interrupted l ((l.items.take j).map workspaceMetric) (k + j) cErr := by
  unfold getWorkspacesListPage
  rw [hapi]
  dsimp only
  rw [sendItems_cancelAt done cErr l.items k j hj hbefore hdone]

/-- Cancellation oracle for the C6 witness: the context is observed
cancelled from the second write attempt on. -/
def c6Done : Nat → Bool := fun i => decide (1 ≤ i)

/-- Three-record page for the C6 witness. -/
def c6List : WorkspaceList := ⟨[wNoRun, wWithRun, wNoRun], ⟨0⟩⟩

theorem C6_witness :
    getWorkspacesListPage c6Done "context canceled" (fun _ => Except.ok c6List) 0 1 "acme"
      = .interrupted c6List ((c6List.items.take 1).map workspaceMetric) (0 + 1)
          "context canceled" :=
  C6_cancel_aborts_page c6Done "context canceled" (fun _ => Except.ok c6List) 0 1 "acme"
    c6List 1 rfl (by decide)
    (fun i hi => by
      have h0 : i = 0 := by omega
      subst h0; rfl)
    rfl

/-- Claim C7: with no cancellation, an organization's completed fetch
writes exactly one sample per record of the visited pages — none omitted,
none duplicated — in upstream page order and, within a page, record order. -/
theorem C7_emits_exactly_page_records (done : Nat → Bool) (cErr : String)
    (api : Nat → Except String WorkspaceList) (org : String) (fuel : Nat)
    (r : OrgResult) (hdone : done = fun _ => false)
    (h : scrapeOrg done cErr api org fuel = some r) (_herr : r.err = none) :
    r.sent = (r.pages.flatMap (pageItems api)).map workspaceMetric := by
  subst hdone
  exact orgLoop_sent cErr api org fuel 0 1 r h

/-- Two-page upstream for the C7 witness (pages 1 and 3, three records). -/
def c7Api : Nat → Except String WorkspaceList := fun p =>
  if p = 1 then .ok ⟨[wNoRun, wWithRun], ⟨3⟩⟩ else .ok ⟨[wWithRun], ⟨0⟩⟩

/-- Outcome of the C7 witness run. -/
def c7Result : OrgResult :=
  ⟨[1, 3], [workspaceMetric wNoRun, workspaceMetric wWithRun, workspaceMetric wWithRun],
   none⟩

theorem C7_witness :
    c7Result.sent = (c7Result.pages.flatMap (pageItems c7Api)).map workspaceMetric :=
  C7_emits_exactly_page_records (fun _ => false) "context canceled" c7Api "acme" 2
    c7Result rfl (by decide) rfl

/-- The fuelled page loop never finishes, whatever the fuel: the
non-termination of the source's unbounded loop in the fuel embedding. -/
def loopsForever (done : Nat → Bool) (cErr : String)
    (api : Nat → Except String WorkspaceList) (org : String) (k page : Nat) : Prop :=
  ∀ fuel, orgLoop done cErr api org fuel k page = none

/-- Claim C8, counterexample: against an upstream whose every page reports
next-page = 1, the fetch for organization "acme" never terminates — no
error and no cancellation occur, yet the requested page sequence (1, 1,
1, ...) neither advances nor reaches the zero sentinel.  The loop imposes
no monotonicity on the next-page values it follows. -/
theorem C8_counterexample_nonadvancing_next_page :
    loopsForever (fun _ => false) "context canceled"
      (fun _ => Except.ok ⟨[], ⟨1⟩⟩) "acme" 0 1 := by
  intro fuel
  induction fuel with
  | zero => rfl
  | succ n ih => simp [orgLoop, getWorkspacesListPage, sendItems, ih]

/-- Claim C8 (amended): pagination terminates provided every successful
page's next-page field is either zero or strictly larger than the
requested page and bounded by some B; then fuel B+1 suffices and the
requested page numbers advance strictly monotonically. -/
theorem C8_terminates_under_bounded_advance (done : Nat → Bool) (cErr : String)
    (api : Nat → Except String WorkspaceList) (org : String) (B : Nat)
    (H : ∀ p l, api p = Except.ok l →
      l.pagination.nextPage = 0 ∨ (p < l.pagination.nextPage ∧ l.pagination.nextPage ≤ B)) :
    (scrapeOrg done cErr api org (B + 1)).isSome = true ∧
    ∀ r, scrapeOrg done cErr api org (B + 1) = some r → List.Chain' (· < ·) r.pages := by
  constructor
  · exact orgLoop_isSome done cErr api org B H (B + 1) 0 1 (by omega)
  · intro r hr
    have hc := orgLoop_chain done cErr api org (B + 1) 0 1 r hr
    refine List.Chain'.imp ?_ hc
    intro a b hab
    rcases hab with ⟨l, hl, rfl, hnz⟩
    rcases H a l hl with h0 | ⟨hlt, -⟩
    · exact absurd h0 hnz
    · exact hlt

/-- Two-page upstream with strictly advancing next-page for the C8
witness. -/
def c8Api : Nat → Except String WorkspaceList := fun p =>
  if p = 1 then .ok ⟨[], ⟨2⟩⟩ else .ok ⟨[], ⟨0⟩⟩

theorem C8_witness :
    (scrapeOrg (fun _ => false) "context canceled" c8Api "acme" 3).isSome = true ∧
    ∀ r, scrapeOrg (fun _ => false) "context canceled" c8Api "acme" 3 = some r →
      List.Chain' (· < ·) r.pages :=
  C8_terminates_under_bounded_advance (fun _ => false) "context canceled" c8Api "acme" 2
    (by
      intro p l hl
      unfold c8Api at hl
      split at hl
      · rename_i hp
        injection hl with h2
        subst h2
        subst hp
        exact Or.inr ⟨by decide, by decide⟩
      · injection hl with h2
        subst h2
        exact Or.inl rfl)

/- ### Claim about the coordinator's failure policy (C3) -/

theorem findSome_id_none_iff (es : List (Option String)) :
    es.findSome? id = none ↔ ∀ e ∈ es, e = none := by
  induction es with
  | nil => simp [List.findSome?]
  | cons a t ih =>
    cases a with
    | none => simp [List.findSome?, ih, List.forall_mem_cons]
    | some v => simp [List.findSome?, List.forall_mem_cons]

theorem findSome_id_some_mem (es : List (Option String)) (e : String)
    (h : es.findSome? id = some e) : some e ∈ es := by
  induction es with
  | nil => simp [List.findSome?] at h
  | cons a t ih =>
    cases a with
    | none =>
      simp [List.findSome?] at h
      exact List.mem_cons_of_mem _ (ih h)
    | some v =>
      simp [List.findSome?] at h
      subst h
      exact List.mem_cons_self _ _

/-- Claim C3: for a completed `Scrape` run, `g.Wait()` returns nil exactly
when every per-organization task returned nil; when some task errors, the
group context shared by all sibling tasks is cancelled and the value
returned by `Scrape` is (one of) the failing tasks' errors.  (The errgroup
collaborator is modelled by its documented semantics; "the first error" in
time is abstracted as the first in task order, and the all-tasks-unwound
timing is implicit in every task contributing its outcome to the result.) -/
theorem C3_first_error_cancels_group (dones : String → Nat → Bool) (cErr : String)
    (api : String → Nat → Except String WorkspaceList) (organizations : List String)
    (fuel : Nat) (tasks : List (String × OrgResult)) (gerr : Option String)
    (h : Scrape dones cErr api organizations fuel = some (tasks, gerr)) :
    (gerr = none ↔ ∀ t ∈ tasks, t.2.err = none) ∧
    ((∃ t ∈ tasks, t.2.err ≠ none) →
      groupCancelled (tasks.map (fun t => t.2.err)) = true ∧
      ∃ t ∈ tasks, gerr = t.2.err ∧ t.2.err ≠ none) := by
  unfold Scrape at h
  rcases Option.map_eq_some'.mp h with ⟨ts, -, hpair⟩
  have h1 : ts = tasks := congrArg Prod.fst hpair
  have h2 : gWait (ts.map (fun t => t.2.err)) = gerr := congrArg Prod.snd hpair
  subst h1
  subst h2
  have hiff : gWait (ts.map fun t => t.2.err) = none ↔ ∀ t ∈ ts, t.2.err = none := by
    rw [gWait, findSome_id_none_iff]
    constructor
    · intro hall t ht
      exact hall _ (List.mem_map_of_mem _ ht)
    · intro hall e he
      rcases List.mem_map.mp he with ⟨t, ht, rfl⟩
      exact hall t ht
  refine ⟨hiff, ?_⟩
  rintro ⟨t, ht, hne⟩
  constructor
  · unfold groupCancelled
    rw [List.any_eq_true]
    exact ⟨t.2.err, List.mem_map_of_mem _ ht, Option.isSome_iff_ne_none.mpr hne⟩
  · have hne2 : gWait (ts.map fun t => t.2.err) ≠ none := fun h0 => hne (hiff.mp h0 t ht)
    rcases Option.ne_none_iff_exists'.mp hne2 with ⟨e, he⟩
    have hmem := findSome_id_some_mem (ts.map fun t => t.2.err) e
      (by simpa [gWait] using he)
    rcases List.mem_map.mp hmem with ⟨t', ht', ht'e⟩
    refine ⟨t', ht', ?_, ?_⟩
    · rw [he, ht'e]
    · rw [ht'e]; simp

/-- Per-organization upstream view for the C3 witness: "acme" fails its
first page, "beta" succeeds with a single empty page. -/
def c3Api : String → Nat → Except String WorkspaceList := fun org _ =>
  if org = "acme" then .error "boom" else .ok ⟨[], ⟨0⟩⟩

/-- Task outcomes of the C3 witness run. -/
def c3Tasks : List (String × OrgResult) :=
  [("acme", ⟨[1], [], some "boom, (organization=acme, page=1)"⟩),
   ("beta", ⟨[1], [], none⟩)]

/-- Coordinator error of the C3 witness run. -/
def c3Err : Option String := some "boom, (organization=acme, page=1)"

theorem C3_witness :
    (c3Err = none ↔ ∀ t ∈ c3Tasks, t.2.err = none) ∧
    ((∃ t ∈ c3Tasks, t.2.err ≠ none) →
      groupCancelled (c3Tasks.map (fun t => t.2.err)) = true ∧
      ∃ t ∈ c3Tasks, c3Err = t.2.err ∧ t.2.err ≠ none) :=
  C3_first_error_cancels_group (fun _ _ => false) "context canceled" c3Api
    ["acme", "beta"] 1 c3Tasks c3Err (by decide)
